import Mathlib

/-!
Shallow embedding of `tools/triage/gitea_utils.py` (a thin Gitea REST client:
request layer, pagination layer, query builders and a timeline event filter),
with theorems checking the module's specification against the code.

The network is modelled as an oracle `net : String → NetResult` giving, for each
requested URL, the observable outcome of `urllib.request.urlopen` composed with
`json.loads` on the response body (the module never inspects a body except
through `json.loads`). Raised Python exceptions are modelled as `Except.error`;
the `while`-loop of the pagination layer gets explicit fuel, with fuel
exhaustion (divergence) modelled as `Except.ok none`.
-/

namespace GiteaUtils

/-- Decoded JSON value: the result of a successful `json.loads`. -/
inductive Json where
  | null : Json
  | bool : Bool → Json
  | num : Int → Json
  | str : String → Json
  | arr : List Json → Json
  | obj : List (String × Json) → Json
  deriving Repr

/-- Python truthiness of a decoded JSON value: `None`, `False`, `0`, `""`, `[]`
and `{}` are falsy, everything else is truthy. -/
def Json.isTruthy : Json → Bool
  | .null => false
  | .bool b => b
  | .num n => n != 0
  | .str s => s != ""
  | .arr xs => !xs.isEmpty
  | .obj fs => !fs.isEmpty

/-- Python iteration over a decoded JSON value, as consumed by `list.extend`:
lists yield their elements, strings their characters, dicts their keys; any
other value raises `TypeError`. -/
def Json.iterElems : Json → Except String (List Json)
  | .arr xs => .ok xs
  | .str s => .ok (s.data.map fun c => Json.str (String.singleton c))
  | .obj fs => .ok (fs.map fun kv => Json.str kv.1)
  | _ => .error "TypeError: object is not iterable"

/-- Python `len` of a decoded JSON value; `None`, booleans and numbers raise
`TypeError`. -/
def Json.pyLen : Json → Except String Nat
  | .arr xs => .ok xs.length
  | .str s => .ok s.length
  | .obj fs => .ok fs.length
  | _ => .error "TypeError: object has no len"

/-- Python subscript `v[k]` on a decoded JSON value: `KeyError` when the key is
absent, `TypeError` when the value is not a dict. `json.loads` keeps one binding
per key, so first-match lookup models dict lookup. -/
def pyGetItem : Json → String → Except String Json
  | .obj fs, k =>
    match fs.find? (fun kv => kv.1 == k) with
    | some kv => .ok kv.2
    | none => .error ("KeyError: " ++ k)
  | _, k => .error ("TypeError: not subscriptable: " ++ k)

/-- Observable outcome of one HTTP GET: `urlopen` raised `URLError`; or the
response body decoded to a JSON value; or the request succeeded but the body is
not valid JSON (so `json.loads` raises). -/
inductive NetResult where
  | urlError : String → NetResult
  | jsonBody : Json → NetResult
  | invalidBody : String → NetResult

/-- Embedding of `url_json_get`: on `URLError` it prints the URL and the error
description and returns `None`; on a decodable body it returns the decoded JSON
value as is; a `json.loads` failure on a successful response propagates to the
caller (`Except.error`). The second component is the printed diagnostic log. -/
def url_json_get (net : String → NetResult) (url : String) :
    Except String (Option Json) × List String :=
  match net url with
  | NetResult.urlError e => (Except.ok none, [url, "Error making HTTP request: " ++ e])
  | NetResult.jsonBody j => (Except.ok (some j), [])
  | NetResult.invalidBody e => (Except.error ("JSONDecodeError: " ++ e), [])

/-- URL requested for a given page by `url_json_get_all_pages`: page 1 requests
the base URL unmodified (workaround for the service bug that ignores `page` and
`limit` on page 1), later pages append `&page={page}&limit={limit}`. -/
def pageUrl (url : String) (page limit : Nat) : String :=
  if page = 1 then url
  else url ++ "&page=" ++ toString page ++ "&limit=" ++ toString limit

/-- Result of a paginated fetch: the outcome (`Except.error` = a Python
exception propagated, `Except.ok none` = the while loop ran out of fuel,
`Except.ok (some items)` = normal return) together with the list of URLs
requested, in request order. -/
structure PagesOut where
  outcome : Except String (Option (List Json))
  requests : List String
  deriving Repr

/-- Body of the `while True` loop of `url_json_get_all_pages`, with explicit
fuel: request the page URL; `break` when the page result is falsy (`None` or
empty); otherwise `extend` the accumulator with the page's elements and `break`
when the page held fewer than `limit` items, else move to the next page. -/
def pagesLoop (net : String → NetResult) (url : String) (limit : Nat) :
    Nat → Nat → List Json → List String → PagesOut
  | 0, _, _, reqs => ⟨Except.ok none, reqs⟩
  | fuel + 1, page, acc, reqs =>
    let u := pageUrl url page limit
    let reqs1 := reqs ++ [u]
    match (url_json_get net u).1 with
    | Except.error e => ⟨Except.error e, reqs1⟩
    | Except.ok none => ⟨Except.ok (some acc), reqs1⟩
    | Except.ok (some j) =>
      if j.isTruthy = false then ⟨Except.ok (some acc), reqs1⟩
      else
        match j.iterElems with
        | Except.error e => ⟨Except.error e, reqs1⟩
        | Except.ok elems =>
          match j.pyLen with
          | Except.error e => ⟨Except.error e, reqs1⟩
          | Except.ok n =>
            if n < limit then ⟨Except.ok (some (acc ++ elems)), reqs1⟩
            else pagesLoop net url limit fuel (page + 1) (acc ++ elems) reqs1

/-- Text of the assertion guarding the page-size limit. -/
def assertLimitMsg : String :=
  "AssertionError: 50 is the maximum limit of items per page"

/-- Embedding of `url_json_get_all_pages`: check the `limit <= 50` assertion,
then run the pagination loop from page 1 with an empty accumulator. A failed
assertion is a raised `AssertionError`, before any request is made. -/
def url_json_get_all_pages (net : String → NetResult) (url : String)
    (limit : Nat) (fuel : Nat) : PagesOut :=
  if limit ≤ 50 then pagesLoop net url limit fuel 1 [] []
  else ⟨Except.error assertLimitMsg, []⟩

/-- Gitea API root used by every query builder. -/
def BASE_API_URL : String := "https://projects.blender.org/api/v1"

/-- Embedding of `gitea_user_get`: GET `/users/{username}`, single page. -/
def gitea_user_get (net : String → NetResult) (username : String) :
    Except String (Option Json) × List String :=
  url_json_get net (BASE_API_URL ++ "/users/" ++ username)

/-- Embedding of `gitea_json_issue_get`: GET `/repos/{issue_fullname}`. -/
def gitea_json_issue_get (net : String → NetResult) (issue_fullname : String) :
    Except String (Option Json) × List String :=
  url_json_get net (BASE_API_URL ++ "/repos/" ++ issue_fullname)

/-- A page response that terminates pagination without contributing items: a
transport error (`url_json_get` returns `None`) or a falsy decoded value such as
an empty list. -/
def NetResult.failedOrEmpty : NetResult → Bool
  | .urlError _ => true
  | .jsonBody j => !j.isTruthy
  | .invalidBody _ => false

/-- Hex digit character (uppercase, as produced by urllib percent-encoding) for
a value below 16. -/
def hexDigitChar (n : Nat) : Char :=
  if n < 10 then Char.ofNat (48 + n) else Char.ofNat (55 + n)

/-- Numeric value of a hex digit character, accepting both cases; `none` for a
character that is not a hex digit. -/
def hexDigitVal (c : Char) : Option Nat :=
  if 48 ≤ c.toNat ∧ c.toNat ≤ 57 then some (c.toNat - 48)
  else if 65 ≤ c.toNat ∧ c.toNat ≤ 70 then some (c.toNat - 55)
  else if 97 ≤ c.toNat ∧ c.toNat ≤ 102 then some (c.toNat - 87)
  else none

/-- UTF-8 encoding of one Unicode code point, as a list of byte values. -/
def utf8EncodeCodepoint (n : Nat) : List Nat :=
  if n < 128 then [n]
  else if n < 2048 then [192 + n / 64, 128 + n % 64]
  else if n < 65536 then [224 + n / 4096, 128 + n / 64 % 64, 128 + n % 64]
  else [240 + n / 262144, 128 + n / 4096 % 64, 128 + n / 64 % 64, 128 + n % 64]

/-- UTF-8 encoding of a character sequence (Python `str.encode()`). -/
def utf8Encode (cs : List Char) : List Nat :=
  (cs.map (fun c => utf8EncodeCodepoint c.toNat)).flatten

/-- UTF-8 decoding of a byte-value sequence (Python `bytes.decode()`); `none`
on malformed input. -/
def utf8Decode : List Nat → Option (List Char)
  | [] => some []
  | b1 :: rest =>
    if b1 < 128 then (utf8Decode rest).map (fun cs => Char.ofNat b1 :: cs)
    else if b1 < 192 then none
    else if b1 < 224 then
      match rest with
      | b2 :: rest2 =>
        if 128 ≤ b2 ∧ b2 < 192 then
          (utf8Decode rest2).map (fun cs => Char.ofNat ((b1 - 192) * 64 + (b2 - 128)) :: cs)
        else none
      | [] => none
    else if b1 < 240 then
      match rest with
      | b2 :: rest2 =>
        match rest2 with
        | b3 :: rest3 =>
          if (128 ≤ b2 ∧ b2 < 192) ∧ (128 ≤ b3 ∧ b3 < 192) then
            (utf8Decode rest3).map
              (fun cs => Char.ofNat ((b1 - 224) * 4096 + (b2 - 128) * 64 + (b3 - 128)) :: cs)
          else none
        | [] => none
      | [] => none
    else if b1 < 248 then
      match rest with
      | b2 :: rest2 =>
        match rest2 with
        | b3 :: rest3 =>
          match rest3 with
          | b4 :: rest4 =>
            if (128 ≤ b2 ∧ b2 < 192) ∧ ((128 ≤ b3 ∧ b3 < 192) ∧ (128 ≤ b4 ∧ b4 < 192)) then
              (utf8Decode rest4).map
                (fun cs =>
                  Char.ofNat
                      ((b1 - 240) * 262144 + (b2 - 128) * 4096 + (b3 - 128) * 64 + (b4 - 128))
                    :: cs)
            else none
          | [] => none
        | [] => none
      | [] => none
    else none

/-- Characters that `urllib.parse.quote_plus` leaves unescaped (with empty
`safe`): ASCII letters, digits, underscore, dot, dash and tilde. -/
def quoteSafeChar (c : Char) : Bool :=
  (decide (65 ≤ c.toNat) && decide (c.toNat ≤ 90)) ||
  (decide (97 ≤ c.toNat) && decide (c.toNat ≤ 122)) ||
  (decide (48 ≤ c.toNat) && decide (c.toNat ≤ 57)) ||
  c == '_' || c == '.' || c == '-' || c == '~'

/-- Percent escape of one byte value: a percent sign followed by two uppercase
hex digits. -/
def percentEscape (b : Nat) : List Char :=
  ['%', hexDigitChar (b / 16), hexDigitChar (b % 16)]

/-- Embedding of `urllib.parse.quote_plus`: safe ASCII characters pass through,
space becomes a plus sign, every other character is percent-escaped byte by
byte of its UTF-8 encoding. -/
def quotePlus : List Char → List Char
  | [] => []
  | c :: cs =>
    (if quoteSafeChar c then [c]
     else if c = ' ' then ['+']
     else ((utf8EncodeCodepoint c.toNat).map percentEscape).flatten) ++ quotePlus cs

/-- Byte sequence denoted by a percent-encoded string: a plus sign is a space
byte, a percent escape is its byte, any other character contributes its UTF-8
bytes; `none` on a malformed escape. -/
def unquoteBytes : List Char → Option (List Nat)
  | [] => some []
  | c :: cs =>
    if c = '%' then
      match cs with
      | h1 :: h2 :: cs2 =>
        match hexDigitVal h1, hexDigitVal h2 with
        | some v1, some v2 => (unquoteBytes cs2).map (fun bs => (16 * v1 + v2) :: bs)
        | _, _ => none
      | _ => none
    else if c = '+' then (unquoteBytes cs).map (fun bs => 32 :: bs)
    else (unquoteBytes cs).map (fun bs => utf8EncodeCodepoint c.toNat ++ bs)

/-- Embedding of `urllib.parse.unquote_plus`. -/
def unquotePlus (cs : List Char) : Option (List Char) :=
  (unquoteBytes cs).bind utf8Decode

/-- Join of character-sequence fields with a separator, as Python
`sep.join(fields)`. -/
def joinSep (sep : Char) : List (List Char) → List Char
  | [] => []
  | [f] => f
  | f :: fs => f ++ sep :: joinSep sep fs

/-- One `key=value` field of an encoded query string, both sides quoted. -/
def encodeField (p : String × String) : List Char :=
  quotePlus p.1.data ++ '=' :: quotePlus p.2.data

/-- Embedding of `urllib.parse.urlencode` on an ordered mapping of string keys
to string values: each pair becomes `quote_plus(k)=quote_plus(v)` and the pairs
are joined with ampersands. -/
def urlencode (ps : List (String × String)) : String :=
  String.mk (joinSep '&' (ps.map encodeField))

/-- Auxiliary splitter: first group before the separator, and the remaining
groups. -/
def splitOnCharAux (sep : Char) : List Char → List Char × List (List Char)
  | [] => ([], [])
  | c :: cs =>
    let r := splitOnCharAux sep cs
    if c = sep then ([], r.1 :: r.2)
    else (c :: r.1, r.2)

/-- Split a character sequence at every occurrence of the separator (Python
`s.split(sep)`); always returns at least one group. -/
def splitOnChar (sep : Char) (l : List Char) : List (List Char) :=
  (splitOnCharAux sep l).1 :: (splitOnCharAux sep l).2

/-- Split a character sequence at the first occurrence of the separator;
`none` when the separator does not occur. -/
def splitFirst (sep : Char) : List Char → Option (List Char × List Char)
  | [] => none
  | c :: cs =>
    if c = sep then some ([], cs)
    else (splitFirst sep cs).map (fun p => (c :: p.1, p.2))

/-- Decoding of one `key=value` field: split at the first equals sign and
unquote name and value; `none` on a field without an equals sign or with a
malformed escape. -/
def parseField (f : List Char) : Option (String × String) :=
  (splitFirst '=' f).bind (fun p =>
    (unquotePlus p.1).bind (fun k =>
      (unquotePlus p.2).map (fun v => (String.mk k, String.mk v))))

/-- Embedding of `urllib.parse.parse_qsl` on the query strings at play: split
on ampersands, skip empty fields, decode each field. -/
def parse_qsl (s : String) : Option (List (String × String)) :=
  ((splitOnChar '&' s.data).filter (fun f => !f.isEmpty)).mapM parseField

/-- Python value of a keyword argument of `gitea_json_issues_search`: `None`,
a string, or a boolean. -/
inductive PyVal where
  | none : PyVal
  | str : String → PyVal
  | bool : Bool → PyVal

/-- Python truthiness of an argument value. -/
def PyVal.isTruthy : PyVal → Bool
  | .none => false
  | .str s => s != ""
  | .bool b => b

/-- Value kept in the query mapping of `gitea_json_issues_search` after the
boolean-coercion pass: `True` and `False` become the literal strings "true" and
"false"; strings stay as they are. (`None` is falsy, hence never kept.) -/
def PyVal.coerce : PyVal → String
  | .none => "None"
  | .str s => s
  | .bool b => if b then "true" else "false"

/-- Arguments of `gitea_json_issues_search`, in declaration order. The Python
defaults are `type=None, since=None, before=None, state='all', labels=None,
created=False, reviewed=False, access_token=None, verbose=True`. -/
structure SearchArgs where
  type : PyVal
  since : PyVal
  before : PyVal
  state : PyVal
  labels : PyVal
  created : PyVal
  reviewed : PyVal
  access_token : PyVal
  verbose : PyVal

/-- The `locals()` mapping of `gitea_json_issues_search` at the point of the
query comprehension: every parameter, in declaration order. -/
def search_locals (a : SearchArgs) : List (String × PyVal) :=
  [("type", a.type), ("since", a.since), ("before", a.before), ("state", a.state),
   ("labels", a.labels), ("created", a.created), ("reviewed", a.reviewed),
   ("access_token", a.access_token), ("verbose", a.verbose)]

/-- Embedding of the `query_params` construction of `gitea_json_issues_search`:
keep the truthy parameters whose name is not "verbose", then coerce booleans to
the literal strings "true"/"false". -/
def search_query_params (a : SearchArgs) : List (String × String) :=
  ((search_locals a).filter (fun kv => kv.2.isTruthy && kv.1 != "verbose")).map
    (fun kv => (kv.1, kv.2.coerce))

/-- Search URL built by `gitea_json_issues_search` from the encoded query
parameters. -/
def search_url (a : SearchArgs) : String :=
  BASE_API_URL ++ "/repos/issues/search?" ++ urlencode (search_query_params a)

/-- Embedding of `gitea_json_issues_search`: build the search URL and fetch all
pages with the default limit 50. -/
def gitea_json_issues_search (net : String → NetResult) (a : SearchArgs)
    (fuel : Nat) : PagesOut :=
  url_json_get_all_pages net (search_url a) 50 fuel

/-- Python equality test between a decoded JSON value and an optional string
(the `username` argument, default `None`): a JSON string equals a string with
the same characters, JSON null equals `None`, nothing else is equal. -/
def pyEqStrOpt : Json → Option String → Bool
  | Json.str s, some t => s == t
  | Json.null, none => true
  | _, _ => false

/-- Python equality test between a decoded JSON value and a string literal. -/
def pyEqStr : Json → String → Bool
  | Json.str s, t => s == t
  | _, _ => false

/-- Python membership test of a decoded JSON value in a collection of
strings. -/
def pyMemStrList : Json → List String → Bool
  | Json.str s, l => l.contains s
  | _, _ => false

/-- Python truthiness of the `labels` argument (`None` or a list of labels). -/
def labelsTruthy : Option (List String) → Bool
  | none => false
  | some l => !l.isEmpty

/-- One iteration of the filter loop of `gitea_json_issue_events_filter`:
decide whether the event is kept, raising (`KeyError`/`TypeError`) exactly
where the Python subscripts would. Falsy events are skipped; then events whose
author is falsy or whose author's username differs from `username` are
discarded; of the rest, an event is kept when `labels` is truthy and the event
is a label event whose label name is in `labels`, or when its type is in
`event_type`. -/
def eventKeep (username : Option String) (labels : Option (List String))
    (event_type : List String) (event : Json) : Except String Bool :=
  if event.isTruthy = false then Except.ok false
  else match pyGetItem event "user" with
  | Except.error e => Except.error e
  | Except.ok user =>
    if user.isTruthy = false then Except.ok false
    else match pyGetItem user "username" with
    | Except.error e => Except.error e
    | Except.ok uname =>
      if pyEqStrOpt uname username = false then Except.ok false
      else
        match (if labelsTruthy labels = false then Except.ok false
               else match pyGetItem event "type" with
               | Except.error e => Except.error e
               | Except.ok ty =>
                 if pyEqStr ty "label" = false then Except.ok false
                 else match pyGetItem event "label" with
                 | Except.error e => Except.error e
                 | Except.ok lab =>
                   match pyGetItem lab "name" with
                   | Except.error e => Except.error e
                   | Except.ok nm => Except.ok (pyMemStrList nm (labels.getD []))) with
        | Except.error e => Except.error e
        | Except.ok true => Except.ok true
        | Except.ok false =>
          match pyGetItem event "type" with
          | Except.error e => Except.error e
          | Except.ok ty => Except.ok (pyMemStrList ty event_type)

/-- The filter loop of `gitea_json_issue_events_filter` over the fetched
timeline events, preserving input order; a raised exception aborts the loop. -/
def eventsFilterLoop (username : Option String) (labels : Option (List String))
    (event_type : List String) : List Json → Except String (List Json)
  | [] => Except.ok []
  | e :: rest =>
    match eventKeep username labels event_type e with
    | Except.error err => Except.error err
    | Except.ok keep =>
      match eventsFilterLoop username labels event_type rest with
      | Except.error err => Except.error err
      | Except.ok r => Except.ok (if keep then e :: r else r)

/-- Timeline URL built by `gitea_json_issue_events_filter`: when a date bound
is present, the `since`/`before` parameters (ISO date with a "Z" suffix) are
urlencoded and attached with a question mark; otherwise the bare timeline
path. -/
def timeline_url (issue_fullname : String) (date_start date_end : Option String) : String :=
  let u := BASE_API_URL ++ "/repos/" ++ issue_fullname ++ "/timeline"
  if date_start.isSome || date_end.isSome then
    u ++ "?" ++ urlencode
      ((match date_start with | some d => [("since", d ++ "Z")] | Option.none => []) ++
       (match date_end with | some d => [("before", d ++ "Z")] | Option.none => []))
  else u

/-- Result of `gitea_json_issue_events_filter`: the outcome together with the
URLs requested by the underlying paginated fetch. -/
structure FilterOut where
  result : Except String (Option (List Json))
  requests : List String
  deriving Repr

/-- Embedding of `gitea_json_issue_events_filter`: build the timeline URL,
fetch all pages (default limit 50), then run the filter loop over the fetched
events. -/
def gitea_json_issue_events_filter (net : String → NetResult)
    (issue_fullname : String) (date_start date_end : Option String)
    (username : Option String) (labels : Option (List String))
    (event_type : List String) (fuel : Nat) : FilterOut :=
  let pages := url_json_get_all_pages net
    (timeline_url issue_fullname date_start date_end) 50 fuel
  match pages.outcome with
  | Except.error e => ⟨Except.error e, pages.requests⟩
  | Except.ok Option.none => ⟨Except.ok Option.none, pages.requests⟩
  | Except.ok (some events) =>
    match eventsFilterLoop username labels event_type events with
    | Except.error e => ⟨Except.error e, pages.requests⟩
    | Except.ok r => ⟨Except.ok (some r), pages.requests⟩

/-- Well-formed timeline event, as the specification describes one: an optional
author username (`none` models a null `user` field), an event type, and the
label name carried by the event's `label` field. -/
structure WfEvent where
  author : Option String
  type : String
  labelName : String

/-- JSON encoding of a well-formed event. -/
def WfEvent.encode (w : WfEvent) : Json :=
  Json.obj [("user", match w.author with
                     | Option.none => Json.null
                     | some u => Json.obj [("username", Json.str u)]),
            ("type", Json.str w.type),
            ("label", Json.obj [("name", Json.str w.labelName)])]

/-- JSON encoding of one entry of a well-formed timeline: a null entry or a
well-formed event. -/
def encodeEntry : Option WfEvent → Json
  | Option.none => Json.null
  | some w => WfEvent.encode w

/-- Keep predicate as the specification states it: the author exists and is the
requested user, and the event is a label event whose label name is in the label
set, or its type is in the event-type set. -/
def specKeep (username : String) (labels : Option (List String))
    (event_type : List String) (w : WfEvent) : Bool :=
  (w.author == some username) &&
  ((w.type == "label" && (labels.getD []).contains w.labelName) ||
   event_type.contains w.type)

/-- Mock page of `n` null items. -/
def mkPage (n : Nat) : Json := Json.arr (List.replicate n Json.null)

/-- Mock endpoint whose successive pages hold 50, 50 and 37 items, addressed
with page-size limit 37; later pages are empty. -/
def net505037at37 : String → NetResult := fun u =>
  if u = "u" then NetResult.jsonBody (mkPage 50)
  else if u = "u&page=2&limit=37" then NetResult.jsonBody (mkPage 50)
  else if u = "u&page=3&limit=37" then NetResult.jsonBody (mkPage 37)
  else NetResult.jsonBody (Json.arr [])

/-- Mock endpoint whose successive pages hold 50, 50 and 37 items, addressed
with page-size limit 50. -/
def net505037at50 : String → NetResult := fun u =>
  if u = "u" then NetResult.jsonBody (mkPage 50)
  else if u = "u&page=2&limit=50" then NetResult.jsonBody (mkPage 50)
  else if u = "u&page=3&limit=50" then NetResult.jsonBody (mkPage 37)
  else NetResult.jsonBody (Json.arr [])

/-- Mock endpoint where every request fails with a connection error. -/
def netAlwaysFails : String → NetResult := fun _ => NetResult.urlError "connection refused"

/-- Mock endpoint returning a successful response whose body is not valid
JSON. -/
def netInvalidBody : String → NetResult := fun _ => NetResult.invalidBody "Expecting value"

/-- Mock endpoint returning the alice user object. -/
def netAlice : String → NetResult :=
  fun _ => NetResult.jsonBody (Json.obj [("id", Json.num 1), ("username", Json.str "alice")])

/-- Fixture: a label event by bob with label name "bug". -/
def bobLabelEvent : Json :=
  Json.obj [("user", Json.obj [("username", Json.str "bob")]),
            ("type", Json.str "label"),
            ("label", Json.obj [("name", Json.str "bug")])]

/-- Fixture: a close event by bob. -/
def bobCloseEvent : Json :=
  Json.obj [("user", Json.obj [("username", Json.str "bob")]), ("type", Json.str "close")]

/-- Fixture: a close event by carol. -/
def carolCloseEvent : Json :=
  Json.obj [("user", Json.obj [("username", Json.str "carol")]), ("type", Json.str "close")]

/-- Fixture: search arguments `created=True, reviewed=False`, the rest at their
Python defaults. -/
def searchArgsExample : SearchArgs :=
  ⟨PyVal.none, PyVal.none, PyVal.none, PyVal.str "all", PyVal.none,
   PyVal.bool true, PyVal.bool false, PyVal.none, PyVal.bool true⟩

theorem pagesLoop_fail_step (net : String → NetResult) (url : String)
    (limit fuel page : Nat) (acc : List Json) (reqs : List String)
    (h : NetResult.failedOrEmpty (net (pageUrl url page limit)) = true) :
    pagesLoop net url limit (fuel + 1) page acc reqs =
      ⟨Except.ok (some acc), reqs ++ [pageUrl url page limit]⟩ := by
  cases hn : net (pageUrl url page limit) with
  | urlError e => simp [pagesLoop, url_json_get, hn]
  | jsonBody j =>
    rw [hn] at h
    simp only [NetResult.failedOrEmpty, Bool.not_eq_true'] at h
    simp [pagesLoop, url_json_get, hn, h]
  | invalidBody e =>
    rw [hn] at h
    simp only [NetResult.failedOrEmpty] at h
    exact absurd h (by simp)

theorem pagesLoop_full_step (net : String → NetResult) (url : String)
    (limit fuel page : Nat) (acc : List Json) (reqs : List String) (xs : List Json)
    (hn : net (pageUrl url page limit) = NetResult.jsonBody (Json.arr xs))
    (hlen : limit ≤ xs.length) (hpos : 0 < limit) :
    pagesLoop net url limit (fuel + 1) page acc reqs =
      pagesLoop net url limit fuel (page + 1) (acc ++ xs)
        (reqs ++ [pageUrl url page limit]) := by
  have hne : xs.isEmpty = false := by
    cases xs with
    | nil => simp at hlen; omega
    | cons a l => rfl
  have hnl : ¬ (xs.length < limit) := by omega
  simp [pagesLoop, url_json_get, hn, Json.isTruthy, Json.iterElems, Json.pyLen, hne, hnl]

theorem pagesLoop_short_step (net : String → NetResult) (url : String)
    (limit fuel page : Nat) (acc : List Json) (reqs : List String) (xs : List Json)
    (hn : net (pageUrl url page limit) = NetResult.jsonBody (Json.arr xs))
    (hne : xs ≠ []) (hlen : xs.length < limit) :
    pagesLoop net url limit (fuel + 1) page acc reqs =
      ⟨Except.ok (some (acc ++ xs)), reqs ++ [pageUrl url page limit]⟩ := by
  have hne' : xs.isEmpty = false := by
    cases xs with
    | nil => exact absurd rfl hne
    | cons a l => rfl
  simp [pagesLoop, url_json_get, hn, Json.isTruthy, Json.iterElems, Json.pyLen, hne', hlen]

/-- C4: calling the pagination function with a page size strictly greater than
50 fails fast via the assertion, before any HTTP request is made; for every
page size at most 50 the check passes and the pagination loop runs. -/
theorem page_limit_assertion_fails_fast (net : String → NetResult) (url : String)
    (limit fuel : Nat) :
    (50 < limit → url_json_get_all_pages net url limit fuel =
      ⟨Except.error assertLimitMsg, []⟩) ∧
    (limit ≤ 50 → url_json_get_all_pages net url limit fuel =
      pagesLoop net url limit fuel 1 [] []) := by
  constructor
  · intro h
    have h' : ¬ (limit ≤ 50) := by omega
    simp [url_json_get_all_pages, h']
  · intro h
    simp [url_json_get_all_pages, h]

/-- Witness for C4 at page sizes 51 and 50. -/
theorem page_limit_assertion_fails_fast_witness :
    (50 < 51 ∧ url_json_get_all_pages netAlwaysFails "u" 51 5 =
      ⟨Except.error assertLimitMsg, []⟩) ∧
    (50 ≤ 50 ∧ url_json_get_all_pages netAlwaysFails "u" 50 5 =
      pagesLoop netAlwaysFails "u" 50 5 1 [] []) :=
  ⟨⟨by decide, (page_limit_assertion_fails_fast netAlwaysFails "u" 51 5).1 (by decide)⟩,
   ⟨by decide, (page_limit_assertion_fails_fast netAlwaysFails "u" 50 5).2 (by decide)⟩⟩

/-- C5: when the HTTP GET fails with a transport error, url_json_get does not
raise: it logs the URL and the error description and returns None; on a
successful decodable response it returns the decoded JSON value unchanged. -/
theorem url_json_get_error_logs_and_returns_none (net : String → NetResult) (url : String) :
    (∀ e, net url = NetResult.urlError e →
      url_json_get net url =
        (Except.ok Option.none, [url, "Error making HTTP request: " ++ e])) ∧
    (∀ j, net url = NetResult.jsonBody j →
      url_json_get net url = (Except.ok (some j), [])) := by
  constructor
  · intro e he
    simp [url_json_get, he]
  · intro j hj
    simp [url_json_get, hj]

/-- Witness for C5: a connection error yields None and the log of the requested
URL; the alice user object is returned unchanged. -/
theorem url_json_get_error_logs_and_returns_none_witness :
    url_json_get netAlwaysFails "https://projects.blender.org/api/v1/users/alice" =
      (Except.ok Option.none,
       ["https://projects.blender.org/api/v1/users/alice",
        "Error making HTTP request: connection refused"]) ∧
    url_json_get netAlice "https://projects.blender.org/api/v1/users/alice" =
      (Except.ok (some (Json.obj [("id", Json.num 1), ("username", Json.str "alice")])), []) :=
  ⟨(url_json_get_error_logs_and_returns_none netAlwaysFails _).1 "connection refused" rfl,
   (url_json_get_error_logs_and_returns_none netAlice _).2 _ rfl⟩

/-- C6: on a successful response whose body is not valid JSON, url_json_get
raises a decode error to the caller (modelled as Except.error) instead of
returning the None that transport errors produce; decode failures are not
caught. -/
theorem url_json_get_decode_error_propagates :
    url_json_get netInvalidBody "https://projects.blender.org/api/v1/users/alice" =
      (Except.error "JSONDecodeError: Expecting value", []) := rfl

theorem pagesLoop_skip_full (net : String → NetResult) (url : String) (limit : Nat)
    (hpos : 0 < limit) (pages : Nat → List Json) :
    ∀ (k page0 fuel : Nat) (acc : List Json) (reqs : List String),
      k ≤ fuel →
      (∀ i, i < k →
        net (pageUrl url (page0 + i) limit) = NetResult.jsonBody (Json.arr (pages (page0 + i))) ∧
        limit ≤ (pages (page0 + i)).length) →
      pagesLoop net url limit fuel page0 acc reqs =
        pagesLoop net url limit (fuel - k) (page0 + k)
          (acc ++ ((List.range k).map (fun i => pages (page0 + i))).flatten)
          (reqs ++ (List.range k).map (fun i => pageUrl url (page0 + i) limit)) := by
  intro k
  induction k with
  | zero => intro page0 fuel acc reqs _ _; simp
  | succ k ih =>
    intro page0 fuel acc reqs hk hfull
    rw [ih page0 fuel acc reqs (by omega) (fun i hi => hfull i (by omega))]
    rw [show fuel - k = (fuel - (k + 1)) + 1 by omega]
    rw [pagesLoop_full_step net url limit (fuel - (k + 1)) (page0 + k) _ _ (pages (page0 + k))
          (hfull k (by omega)).1 (hfull k (by omega)).2 hpos]
    have hacc : (acc ++ ((List.range k).map (fun i => pages (page0 + i))).flatten) ++
        pages (page0 + k) =
        acc ++ ((List.range (k + 1)).map (fun i => pages (page0 + i))).flatten := by
      simp [List.range_succ]
    have hreq : (reqs ++ (List.range k).map (fun i => pageUrl url (page0 + i) limit)) ++
        [pageUrl url (page0 + k) limit] =
        reqs ++ (List.range (k + 1)).map (fun i => pageUrl url (page0 + i) limit) := by
      simp [List.range_succ]
    rw [hacc, hreq]
    rfl

theorem pagesLoop_requests_shape (net : String → NetResult) (url : String) (limit : Nat) :
    ∀ (fuel page0 : Nat) (acc : List Json) (reqs : List String), ∃ m,
      (pagesLoop net url limit fuel page0 acc reqs).requests =
        reqs ++ (List.range m).map (fun i => pageUrl url (page0 + i) limit) := by
  intro fuel
  induction fuel with
  | zero =>
    intro page0 acc reqs
    exact ⟨0, by simp [pagesLoop]⟩
  | succ fuel ih =>
    intro page0 acc reqs
    simp only [pagesLoop]
    split
    · exact ⟨1, by simp [List.range_succ]⟩
    · exact ⟨1, by simp [List.range_succ]⟩
    · split
      · exact ⟨1, by simp [List.range_succ]⟩
      · split
        · exact ⟨1, by simp [List.range_succ]⟩
        · split
          · exact ⟨1, by simp [List.range_succ]⟩
          · split
            · exact ⟨1, by simp [List.range_succ]⟩
            · obtain ⟨m, hm⟩ := ih (page0 + 1) _ _
              refine ⟨m + 1, ?_⟩
              rw [hm]
              have hf : (fun i => pageUrl url (page0 + 1 + i) limit) =
                  (fun i => pageUrl url (page0 + (i + 1)) limit) := by
                funext i
                congr 1
                omega
              rw [hf, List.range_succ_eq_map]
              simp [List.map_map, Function.comp]

/-- C3: when pages 1..k-1 are full pages and the request for page k fails
(transport error) or yields a falsy result (such as an empty list), pagination
stops at page k and returns exactly the items accumulated from the preceding
pages; in particular (k = 1) the result is empty if the very first request
fails. -/
theorem failed_page_stops_pagination (net : String → NetResult) (url : String)
    (limit fuel k : Nat) (pages : Nat → List Json)
    (hlim : limit ≤ 50) (hpos : 0 < limit) (hk : 1 ≤ k) (hfuel : k ≤ fuel)
    (hfull : ∀ i, 1 ≤ i → i < k →
      net (pageUrl url i limit) = NetResult.jsonBody (Json.arr (pages i)) ∧
      limit ≤ (pages i).length)
    (hfail : NetResult.failedOrEmpty (net (pageUrl url k limit)) = true) :
    url_json_get_all_pages net url limit fuel =
      ⟨Except.ok (some (((List.range (k - 1)).map (fun i => pages (1 + i))).flatten)),
       (List.range (k - 1)).map (fun i => pageUrl url (1 + i) limit) ++
         [pageUrl url k limit]⟩ := by
  obtain ⟨j, rfl⟩ : ∃ j, k = j + 1 := ⟨k - 1, by omega⟩
  simp only [url_json_get_all_pages, if_pos hlim]
  rw [pagesLoop_skip_full net url limit hpos pages j 1 fuel [] [] (by omega)
       (fun i hi => hfull (1 + i) (by omega) (by omega))]
  obtain ⟨m, hm⟩ : ∃ m, fuel - j = m + 1 := ⟨fuel - j - 1, by omega⟩
  rw [hm]
  rw [show (1 : Nat) + j = j + 1 by omega] at *
  rw [pagesLoop_fail_step net url limit m (j + 1) _ _ hfail]
  simp

/-- Witness for C3 with k = 1: the very first request fails, the result is the
empty sequence after exactly that one request. -/
theorem failed_page_stops_pagination_witness :
    url_json_get_all_pages netAlwaysFails "u" 50 1 = ⟨Except.ok (some []), ["u"]⟩ := by
  have h := failed_page_stops_pagination netAlwaysFails "u" 50 1 1 (fun _ => [])
    (by decide) (by decide) (by decide) (by decide)
    (fun i h1 h2 => absurd (Nat.lt_of_lt_of_le h2 h1) (by simp))
    rfl
  simpa using h

/-- C1 (amended): for every page size p with 37 < p and p ≤ 50, paginating a
mocked endpoint whose successive pages contain 50, 50 and 37 items returns the
concatenation of exactly 137 items and performs exactly 3 HTTP requests. (For
p ≤ 37 the third page is not shorter than p, so a fourth request is made.) -/
theorem pages_50_50_37_three_requests (net : String → NetResult) (url : String)
    (p fuel : Nat) (l1 l2 l3 : List Json)
    (hp1 : 37 < p) (hp2 : p ≤ 50) (hfuel : 3 ≤ fuel)
    (h1 : net (pageUrl url 1 p) = NetResult.jsonBody (Json.arr l1)) (h1l : l1.length = 50)
    (h2 : net (pageUrl url 2 p) = NetResult.jsonBody (Json.arr l2)) (h2l : l2.length = 50)
    (h3 : net (pageUrl url 3 p) = NetResult.jsonBody (Json.arr l3)) (h3l : l3.length = 37) :
    url_json_get_all_pages net url p fuel =
      ⟨Except.ok (some (l1 ++ l2 ++ l3)),
       [pageUrl url 1 p, pageUrl url 2 p, pageUrl url 3 p]⟩ ∧
    (l1 ++ l2 ++ l3).length = 137 := by
  have hne3 : l3 ≠ [] := by
    intro h
    rw [h] at h3l
    simp at h3l
  constructor
  · simp only [url_json_get_all_pages, if_pos hp2]
    rw [show fuel = (fuel - 3) + 2 + 1 by omega]
    rw [pagesLoop_full_step net url p ((fuel - 3) + 2) 1 [] [] l1 h1 (by omega) (by omega)]
    rw [show (fuel - 3) + 2 = (fuel - 3) + 1 + 1 by omega]
    rw [pagesLoop_full_step net url p ((fuel - 3) + 1) 2 _ _ l2 h2 (by omega) (by omega)]
    rw [show (fuel - 3) + 1 = (fuel - 3) + 1 by rfl]
    rw [pagesLoop_short_step net url p (fuel - 3) 3 _ _ l3 h3 hne3 (by omega)]
    simp
  · simp [h1l, h2l, h3l]

/-- C1 counterexample: at page size 37 the same mocked endpoint (pages of 50,
50 and 37 items, empty afterwards) makes 4 HTTP requests, not 3, because the
37-item page is not strictly shorter than the limit; the returned items are
still the 137. -/
theorem pages_50_50_37_at_37_four_requests :
    (url_json_get_all_pages net505037at37 "u" 37 10).requests =
      ["u", "u&page=2&limit=37", "u&page=3&limit=37", "u&page=4&limit=37"] ∧
    (url_json_get_all_pages net505037at37 "u" 37 10).requests.length = 4 ∧
    (url_json_get_all_pages net505037at37 "u" 37 10).outcome =
      Except.ok (some (List.replicate 137 Json.null)) :=
  ⟨rfl, rfl, rfl⟩

/-- Witness for C1 (amended) at p = 50 with concrete pages of null items. -/
theorem pages_50_50_37_three_requests_witness :
    url_json_get_all_pages net505037at50 "u" 50 10 =
      ⟨Except.ok (some (List.replicate 50 Json.null ++ List.replicate 50 Json.null ++
                        List.replicate 37 Json.null)),
       [pageUrl "u" 1 50, pageUrl "u" 2 50, pageUrl "u" 3 50]⟩ ∧
    (List.replicate 50 Json.null ++ List.replicate 50 Json.null ++
     List.replicate 37 Json.null).length = 137 :=
  pages_50_50_37_three_requests net505037at50 "u" 50 10 _ _ _ (by decide) (by decide)
    (by decide) rfl (by simp) rfl (by simp) rfl (by simp)

theorem eventsFilterLoop_cons (username : Option String) (labels : Option (List String))
    (event_type : List String) (e : Json) (rest : List Json) :
    eventsFilterLoop username labels event_type (e :: rest) =
      match eventKeep username labels event_type e with
      | Except.error err => Except.error err
      | Except.ok keep =>
        match eventsFilterLoop username labels event_type rest with
        | Except.error err => Except.error err
        | Except.ok r => Except.ok (if keep then e :: r else r) := rfl

theorem eventKeep_encode (u : String) (labels : Option (List String))
    (event_type : List String) (w : WfEvent) :
    eventKeep (some u) labels event_type (WfEvent.encode w) =
      Except.ok (specKeep u labels event_type w) := by
  obtain ⟨author, ty, lname⟩ := w
  cases author with
  | none =>
    simp [eventKeep, WfEvent.encode, pyGetItem, Json.isTruthy, specKeep, pyEqStrOpt]
  | some a =>
    cases hau : a == u with
    | false =>
      simp [eventKeep, WfEvent.encode, pyGetItem, Json.isTruthy, specKeep, pyEqStrOpt, hau]
    | true =>
      cases labels with
      | none =>
        simp [eventKeep, WfEvent.encode, pyGetItem, Json.isTruthy, specKeep, pyEqStrOpt,
              hau, labelsTruthy, pyEqStr, pyMemStrList]
      | some l =>
        cases l with
        | nil =>
          simp [eventKeep, WfEvent.encode, pyGetItem, Json.isTruthy, specKeep, pyEqStrOpt,
                hau, labelsTruthy, pyEqStr, pyMemStrList]
        | cons x xs =>
          cases hty : ty == "label" <;>
            simp [eventKeep, WfEvent.encode, pyGetItem, Json.isTruthy, specKeep, pyEqStrOpt,
                  hau, labelsTruthy, pyEqStr, pyMemStrList, hty]
          split
          all_goals simp_all

/-- C2: on a well-formed timeline, the event filter returns, in input order,
exactly the non-null events whose author exists and has the requested username
and that either are label events whose label name is in the supplied labels
set, or whose type is in the supplied event-type set. -/
theorem events_filter_keeps_matching_author_events (entries : List (Option WfEvent))
    (u : String) (labels : Option (List String)) (event_type : List String) :
    eventsFilterLoop (some u) labels event_type (entries.map encodeEntry) =
      Except.ok (((entries.filterMap id).filter
        (specKeep u labels event_type)).map WfEvent.encode) := by
  induction entries with
  | nil => rfl
  | cons e rest ih =>
    cases e with
    | none =>
      rw [List.map_cons, eventsFilterLoop_cons]
      rw [show encodeEntry Option.none = Json.null from rfl]
      rw [show eventKeep (some u) labels event_type Json.null = Except.ok false from rfl]
      rw [ih]
      simp
    | some w =>
      rw [List.map_cons, eventsFilterLoop_cons]
      rw [show encodeEntry (some w) = WfEvent.encode w from rfl]
      rw [eventKeep_encode, ih]
      cases hk : specKeep u labels event_type w <;> simp [hk]

/-- C10: with the default username None, every event whose author's username is
a JSON string is discarded, so a timeline whose truthy events all have a truthy
author or a string username filters to the empty sequence. -/
theorem default_username_filters_everything (events : List Json)
    (labels : Option (List String)) (event_type : List String)
    (h : ∀ e ∈ events, e.isTruthy = true →
      ∃ user, pyGetItem e "user" = Except.ok user ∧
        (user.isTruthy = false ∨
         ∃ s, pyGetItem user "username" = Except.ok (Json.str s))) :
    eventsFilterLoop Option.none labels event_type events = Except.ok [] := by
  induction events with
  | nil => rfl
  | cons e rest ih =>
    rw [eventsFilterLoop_cons]
    rw [ih (fun x hx => h x (by simp [hx]))]
    by_cases ht : e.isTruthy = true
    · obtain ⟨user, hu, hcase⟩ := h e (by simp) ht
      have hkeep : eventKeep Option.none labels event_type e = Except.ok false := by
        rcases hcase with hfalse | ⟨s, hs⟩
        · simp [eventKeep, ht, hu, hfalse]
        · by_cases hut : user.isTruthy = false
          · simp [eventKeep, ht, hu, hut]
          · simp [eventKeep, ht, hu, hut, hs, pyEqStrOpt]
      rw [hkeep]
      rfl
    · have ht' : e.isTruthy = false := by
        cases hb : e.isTruthy
        · rfl
        · exact absurd hb ht
      have hkeep : eventKeep Option.none labels event_type e = Except.ok false := by
        simp [eventKeep, ht']
      rw [hkeep]
      rfl

/-- Witness for C10: the bob/carol fixture timeline filters to nothing when the
username is left at its default None. -/
theorem default_username_filters_everything_witness :
    eventsFilterLoop Option.none (some ["bug"]) ["close"]
      [bobLabelEvent, bobCloseEvent, carolCloseEvent] = Except.ok [] := by
  refine default_username_filters_everything _ _ _ ?_
  intro e he ht
  simp only [List.mem_cons, List.not_mem_nil, or_false] at he
  rcases he with rfl | rfl | rfl
  · exact ⟨Json.obj [("username", Json.str "bob")], rfl, Or.inr ⟨"bob", rfl⟩⟩
  · exact ⟨Json.obj [("username", Json.str "bob")], rfl, Or.inr ⟨"bob", rfl⟩⟩
  · exact ⟨Json.obj [("username", Json.str "carol")], rfl, Or.inr ⟨"carol", rfl⟩⟩

theorem filter_requests_eq (net : String → NetResult) (f : String)
    (ds de : Option String) (username : Option String) (labels : Option (List String))
    (event_type : List String) (fuel : Nat) :
    (gitea_json_issue_events_filter net f ds de username labels event_type fuel).requests =
      (url_json_get_all_pages net (timeline_url f ds de) 50 fuel).requests := by
  simp only [gitea_json_issue_events_filter]
  split
  · rfl
  · rfl
  · split <;> rfl

theorem timeline_url_no_query (f : String) (h : f.data.contains '?' = false) :
    (timeline_url f Option.none Option.none).data.contains '?' = false := by
  have h1 : ¬ ('?' ∈ BASE_API_URL.data) := by decide
  have h2 : ¬ ('?' ∈ f.data) := by simpa using h
  have ht : timeline_url f Option.none Option.none =
      (BASE_API_URL ++ "/repos/") ++ f ++ "/timeline" := by
    simp [timeline_url]
  rw [ht]
  simp [String.data_append, h1, h2]

theorem pageUrl_append_form (url : String) (n : Nat) (h : 2 ≤ n) :
    pageUrl url n 50 = url ++ "&page=" ++ toString n ++ "&limit=50" := by
  have hn : ¬ (n = 1) := by omega
  rw [pageUrl, if_neg hn, String.append_assoc]
  congr 1

/-- C9: with neither date bound, the timeline URL contains no question mark
(provided the issue name has none), and every page-2-or-later request URL
produced by pagination appends "&page={n}&limit=50" with an ampersand to that
query-less URL. -/
theorem timeline_page_urls_ampersand_form (net : String → NetResult) (f : String)
    (username : Option String) (labels : Option (List String))
    (event_type : List String) (fuel : Nat)
    (h : f.data.contains '?' = false) :
    ((timeline_url f Option.none Option.none).data.contains '?' = false) ∧
    (∀ n, 2 ≤ n → pageUrl (timeline_url f Option.none Option.none) n 50 =
      timeline_url f Option.none Option.none ++ "&page=" ++ toString n ++ "&limit=50") ∧
    (∃ m, (gitea_json_issue_events_filter net f Option.none Option.none username labels
        event_type fuel).requests =
      (List.range m).map
        (fun i => pageUrl (timeline_url f Option.none Option.none) (1 + i) 50)) := by
  refine ⟨timeline_url_no_query f h, fun n hn => pageUrl_append_form _ n hn, ?_⟩
  rw [filter_requests_eq]
  rw [show url_json_get_all_pages net (timeline_url f Option.none Option.none) 50 fuel =
        pagesLoop net (timeline_url f Option.none Option.none) 50 fuel 1 [] [] by
      simp [url_json_get_all_pages]]
  obtain ⟨m, hm⟩ :=
    pagesLoop_requests_shape net (timeline_url f Option.none Option.none) 50 fuel 1 [] []
  exact ⟨m, by simpa using hm⟩

/-- Witness for C9 at a concrete issue name and page 2. -/
theorem timeline_page_urls_ampersand_form_witness :
    ((timeline_url "blender/blender/issues/1" Option.none Option.none).data.contains '?'
      = false) ∧
    pageUrl (timeline_url "blender/blender/issues/1" Option.none Option.none) 2 50 =
      timeline_url "blender/blender/issues/1" Option.none Option.none ++ "&page=" ++
        toString 2 ++ "&limit=50" :=
  ⟨(timeline_page_urls_ampersand_form netAlwaysFails "blender/blender/issues/1"
      Option.none Option.none [] 1 (by decide)).1,
   (timeline_page_urls_ampersand_form netAlwaysFails "blender/blender/issues/1"
      Option.none Option.none [] 1 (by decide)).2.1 2 (by decide)⟩

theorem search_query_params_eq (a : SearchArgs) :
    search_query_params a =
      (if a.type.isTruthy then [("type", a.type.coerce)] else []) ++
      (if a.since.isTruthy then [("since", a.since.coerce)] else []) ++
      (if a.before.isTruthy then [("before", a.before.coerce)] else []) ++
      (if a.state.isTruthy then [("state", a.state.coerce)] else []) ++
      (if a.labels.isTruthy then [("labels", a.labels.coerce)] else []) ++
      (if a.created.isTruthy then [("created", a.created.coerce)] else []) ++
      (if a.reviewed.isTruthy then [("reviewed", a.reviewed.coerce)] else []) ++
      (if a.access_token.isTruthy then [("access_token", a.access_token.coerce)] else []) := by
  cases h1 : a.type.isTruthy <;> cases h2 : a.since.isTruthy <;>
  cases h3 : a.before.isTruthy <;> cases h4 : a.state.isTruthy <;>
  cases h5 : a.labels.isTruthy <;> cases h6 : a.created.isTruthy <;>
  cases h7 : a.reviewed.isTruthy <;> cases h8 : a.access_token.isTruthy <;>
    simp [search_query_params, search_locals, h1, h2, h3, h4, h5, h6, h7, h8]

/-- C7: the query mapping built by gitea_json_issues_search holds exactly the
named filters with truthy values, in declaration order, excluding the verbose
flag, with boolean values coerced to the literal strings "true"/"false"; in
particular created=True contributes ("created", "true") and reviewed=False is
omitted. -/
theorem search_params_truthy_excluding_verbose (a : SearchArgs) :
    (search_query_params a =
      (if a.type.isTruthy then [("type", a.type.coerce)] else []) ++
      (if a.since.isTruthy then [("since", a.since.coerce)] else []) ++
      (if a.before.isTruthy then [("before", a.before.coerce)] else []) ++
      (if a.state.isTruthy then [("state", a.state.coerce)] else []) ++
      (if a.labels.isTruthy then [("labels", a.labels.coerce)] else []) ++
      (if a.created.isTruthy then [("created", a.created.coerce)] else []) ++
      (if a.reviewed.isTruthy then [("reviewed", a.reviewed.coerce)] else []) ++
      (if a.access_token.isTruthy then [("access_token", a.access_token.coerce)] else [])) ∧
    (a.created = PyVal.bool true → ("created", "true") ∈ search_query_params a) ∧
    (a.reviewed = PyVal.bool false → ∀ v, ("reviewed", v) ∉ search_query_params a) := by
  refine ⟨search_query_params_eq a, ?_, ?_⟩
  · intro hc
    rw [search_query_params_eq a, hc]
    simp [PyVal.isTruthy, PyVal.coerce]
  · intro hr v
    rw [search_query_params_eq a, hr]
    simp only [PyVal.isTruthy, if_false, Bool.false_eq_true]
    simp only [List.mem_append, not_or]
    refine ⟨⟨⟨⟨⟨⟨⟨?_, ?_⟩, ?_⟩, ?_⟩, ?_⟩, ?_⟩, ?_⟩, ?_⟩ <;>
      (intro hx; first
        | (split at hx <;> simp_all)
        | simp_all)

/-- Witness for C7 at created=True, reviewed=False. -/
theorem search_params_truthy_excluding_verbose_witness :
    ("created", "true") ∈ search_query_params searchArgsExample ∧
    ¬ (("reviewed", "false") ∈ search_query_params searchArgsExample) :=
  ⟨(search_params_truthy_excluding_verbose searchArgsExample).2.1 rfl,
   (search_params_truthy_excluding_verbose searchArgsExample).2.2 rfl "false"⟩

theorem char_toNat_lt (c : Char) : c.toNat < 1114112 := by
  rcases c with ⟨v, hv⟩
  rcases hv with h | ⟨h1, h2⟩
  · exact Nat.lt_trans h (by norm_num)
  · exact h2

theorem utf8Decode_encodeCodepoint (c : Char) (bs : List Nat) :
    utf8Decode (utf8EncodeCodepoint c.toNat ++ bs) =
      (utf8Decode bs).map (fun cs => c :: cs) := by
  have hlt : c.toNat < 1114112 := char_toNat_lt c
  by_cases h1 : c.toNat < 128
  · rw [utf8EncodeCodepoint, if_pos h1]
    simp only [List.cons_append, List.nil_append]
    rw [utf8Decode.eq_def]
    dsimp only
    rw [if_pos h1]
    simp only [Char.ofNat_toNat]
  · by_cases h2 : c.toNat < 2048
    · rw [utf8EncodeCodepoint, if_neg h1, if_pos h2]
      simp only [List.cons_append, List.nil_append]
      rw [utf8Decode.eq_def]
      dsimp only
      rw [if_neg (by omega), if_neg (by omega), if_pos (by omega),
          if_pos ⟨by omega, by omega⟩]
      have harg : (192 + c.toNat / 64 - 192) * 64 + (128 + c.toNat % 64 - 128) = c.toNat := by
        omega
      simp only [harg, Char.ofNat_toNat]
    · by_cases h3 : c.toNat < 65536
      · rw [utf8EncodeCodepoint, if_neg h1, if_neg h2, if_pos h3]
        simp only [List.cons_append, List.nil_append]
        rw [utf8Decode.eq_def]
        dsimp only
        rw [if_neg (by omega), if_neg (by omega), if_neg (by omega), if_pos (by omega),
            if_pos ⟨⟨by omega, by omega⟩, ⟨by omega, by omega⟩⟩]
        have harg : (224 + c.toNat / 4096 - 224) * 4096 + (128 + c.toNat / 64 % 64 - 128) * 64 +
            (128 + c.toNat % 64 - 128) = c.toNat := by omega
        simp only [harg, Char.ofNat_toNat]
      · rw [utf8EncodeCodepoint, if_neg h1, if_neg h2, if_neg h3]
        simp only [List.cons_append, List.nil_append]
        rw [utf8Decode.eq_def]
        dsimp only
        rw [if_neg (by omega), if_neg (by omega), if_neg (by omega), if_neg (by omega),
            if_pos (by omega),
            if_pos ⟨⟨by omega, by omega⟩, ⟨⟨by omega, by omega⟩, ⟨by omega, by omega⟩⟩⟩]
        have harg : (240 + c.toNat / 262144 - 240) * 262144 +
            (128 + c.toNat / 4096 % 64 - 128) * 4096 +
            (128 + c.toNat / 64 % 64 - 128) * 64 + (128 + c.toNat % 64 - 128) = c.toNat := by
          omega
        simp only [harg, Char.ofNat_toNat]

theorem utf8Decode_utf8Encode (cs : List Char) : utf8Decode (utf8Encode cs) = some cs := by
  induction cs with
  | nil => rfl
  | cons c rest ih =>
    show utf8Decode (utf8EncodeCodepoint c.toNat ++ utf8Encode rest) = some (c :: rest)
    rw [utf8Decode_encodeCodepoint, ih]
    rfl

theorem hexDigitVal_hexDigitChar (x : Nat) (h : x < 16) :
    hexDigitVal (hexDigitChar x) = some x := by
  interval_cases x <;> decide

theorem unquoteBytes_percentEscape (b : Nat) (hb : b < 256) (cs : List Char) :
    unquoteBytes (percentEscape b ++ cs) = (unquoteBytes cs).map (fun bs => b :: bs) := by
  simp only [percentEscape, List.cons_append, List.nil_append]
  rw [unquoteBytes.eq_def]
  dsimp only
  rw [if_pos rfl]
  rw [hexDigitVal_hexDigitChar _ (by omega), hexDigitVal_hexDigitChar _ (by omega)]
  have harg : 16 * (b / 16) + b % 16 = b := by omega
  simp only [harg]

theorem utf8EncodeCodepoint_bytes_lt (n : Nat) (hn : n < 1114112) :
    ∀ b ∈ utf8EncodeCodepoint n, b < 256 := by
  intro b hb
  by_cases h1 : n < 128
  · rw [utf8EncodeCodepoint, if_pos h1] at hb
    simp at hb
    omega
  · by_cases h2 : n < 2048
    · rw [utf8EncodeCodepoint, if_neg h1, if_pos h2] at hb
      simp at hb
      omega
    · by_cases h3 : n < 65536
      · rw [utf8EncodeCodepoint, if_neg h1, if_neg h2, if_pos h3] at hb
        simp at hb
        omega
      · rw [utf8EncodeCodepoint, if_neg h1, if_neg h2, if_neg h3] at hb
        simp at hb
        omega

theorem unquoteBytes_escapes (bs : List Nat) (hb : ∀ b ∈ bs, b < 256) (cs : List Char) :
    unquoteBytes ((bs.map percentEscape).flatten ++ cs) =
      (unquoteBytes cs).map (fun l => bs ++ l) := by
  induction bs with
  | nil =>
    simp only [List.map_nil, List.flatten_nil, List.nil_append]
    cases unquoteBytes cs <;> rfl
  | cons b rest ih =>
    simp only [List.map_cons, List.flatten_cons, List.append_assoc]
    rw [unquoteBytes_percentEscape b (hb b (by simp))]
    rw [ih (fun x hx => hb x (by simp [hx]))]
    cases unquoteBytes cs <;> rfl

theorem quoteSafeChar_ne (c : Char) (h : quoteSafeChar c = true) :
    c ≠ '%' ∧ c ≠ '+' ∧ c ≠ '&' ∧ c ≠ '=' := by
  refine ⟨?_, ?_, ?_, ?_⟩ <;> (intro he; subst he; exact absurd h (by decide))

theorem unquoteBytes_quotePlus (cs : List Char) :
    unquoteBytes (quotePlus cs) = some (utf8Encode cs) := by
  induction cs with
  | nil => rfl
  | cons c rest ih =>
    rw [quotePlus]
    by_cases hsafe : quoteSafeChar c = true
    · rw [if_pos hsafe]
      simp only [List.cons_append, List.nil_append]
      rw [unquoteBytes.eq_def]
      dsimp only
      rw [if_neg (quoteSafeChar_ne c hsafe).1, if_neg (quoteSafeChar_ne c hsafe).2.1]
      rw [ih]
      rfl
    · rw [if_neg hsafe]
      by_cases hsp : c = ' '
      · rw [if_pos hsp]
        simp only [List.cons_append, List.nil_append]
        rw [unquoteBytes.eq_def]
        dsimp only
        rw [if_neg (by decide), if_pos rfl]
        rw [ih]
        subst hsp
        rfl
      · rw [if_neg hsp]
        rw [unquoteBytes_escapes (utf8EncodeCodepoint c.toNat)
              (utf8EncodeCodepoint_bytes_lt _ (char_toNat_lt c))]
        rw [ih]
        rfl

theorem unquotePlus_quotePlus (cs : List Char) : unquotePlus (quotePlus cs) = some cs := by
  rw [unquotePlus, unquoteBytes_quotePlus]
  show utf8Decode (utf8Encode cs) = some cs
  exact utf8Decode_utf8Encode cs

theorem hexDigitChar_ne_amp_eq (x : Nat) (h : x < 16) :
    hexDigitChar x ≠ '&' ∧ hexDigitChar x ≠ '=' := by
  interval_cases x <;> exact ⟨by decide, by decide⟩

theorem quotePlus_no_amp_eq (cs : List Char) :
    ∀ c ∈ quotePlus cs, c ≠ '&' ∧ c ≠ '=' := by
  induction cs with
  | nil => simp [quotePlus]
  | cons c rest ih =>
    intro x hx
    rw [quotePlus] at hx
    rcases List.mem_append.mp hx with hx1 | hx2
    · by_cases hsafe : quoteSafeChar c = true
      · rw [if_pos hsafe] at hx1
        simp only [List.mem_singleton] at hx1
        subst hx1
        exact ⟨(quoteSafeChar_ne x hsafe).2.2.1, (quoteSafeChar_ne x hsafe).2.2.2⟩
      · rw [if_neg hsafe] at hx1
        by_cases hsp : c = ' '
        · rw [if_pos hsp] at hx1
          simp only [List.mem_singleton] at hx1
          subst hx1
          exact ⟨by decide, by decide⟩
        · rw [if_neg hsp] at hx1
          simp only [List.mem_flatten, List.mem_map] at hx1
          obtain ⟨l, ⟨b, hb, rfl⟩, hxl⟩ := hx1
          have hb256 : b < 256 :=
            utf8EncodeCodepoint_bytes_lt c.toNat (char_toNat_lt c) b hb
          simp only [percentEscape, List.mem_cons, List.not_mem_nil, or_false] at hxl
          rcases hxl with rfl | rfl | rfl
          · exact ⟨by decide, by decide⟩
          · exact hexDigitChar_ne_amp_eq _ (by omega)
          · exact hexDigitChar_ne_amp_eq _ (by omega)
    · exact ih x hx2

theorem splitOnCharAux_no_sep (sep : Char) (l : List Char) (h : ¬ sep ∈ l) :
    splitOnCharAux sep l = (l, []) := by
  induction l with
  | nil => rfl
  | cons c cs ih =>
    simp only [splitOnCharAux]
    rw [ih (fun hx => h (by simp [hx]))]
    rw [if_neg (fun he => h (by simp [he]))]

theorem splitOnCharAux_sep_split (sep : Char) (p rest : List Char) (hp : ¬ sep ∈ p) :
    splitOnCharAux sep (p ++ sep :: rest) = (p, splitOnChar sep rest) := by
  induction p with
  | nil =>
    simp only [List.nil_append, splitOnCharAux, splitOnChar]
    rw [if_pos trivial]
  | cons c cs ih =>
    simp only [List.cons_append, splitOnCharAux, List.append_eq]
    rw [ih (fun hx => hp (by simp [hx]))]
    rw [if_neg (fun he => hp (by simp [he]))]

theorem splitOnChar_joinSep (sep : Char) (parts : List (List Char))
    (h : ∀ p ∈ parts, ¬ sep ∈ p) (hne : parts ≠ []) :
    splitOnChar sep (joinSep sep parts) = parts := by
  induction parts with
  | nil => exact absurd rfl hne
  | cons p rest ih =>
    cases rest with
    | nil =>
      show splitOnChar sep (joinSep sep [p]) = [p]
      rw [show joinSep sep [p] = p from rfl]
      rw [splitOnChar, splitOnCharAux_no_sep sep p (h p (by simp))]
    | cons q rest2 =>
      rw [show joinSep sep (p :: q :: rest2) = p ++ sep :: joinSep sep (q :: rest2) from rfl]
      rw [splitOnChar, splitOnCharAux_sep_split sep p _ (h p (by simp))]
      rw [show (p, splitOnChar sep (joinSep sep (q :: rest2))).1 = p from rfl]
      rw [show (p, splitOnChar sep (joinSep sep (q :: rest2))).2 =
            splitOnChar sep (joinSep sep (q :: rest2)) from rfl]
      rw [ih (fun x hx => h x (by simp [hx])) (by simp)]

theorem splitFirst_at_sep (sep : Char) (k v : List Char) (hk : ¬ sep ∈ k) :
    splitFirst sep (k ++ sep :: v) = some (k, v) := by
  induction k with
  | nil =>
    simp only [List.nil_append, splitFirst]
    rw [if_pos trivial]
  | cons c cs ih =>
    simp only [List.cons_append, splitFirst, List.append_eq]
    rw [if_neg (fun he => hk (by simp [he]))]
    rw [ih (fun hx => hk (by simp [hx]))]
    rfl

theorem encodeField_no_amp (pr : String × String) : ¬ '&' ∈ encodeField pr := by
  intro hx
  rw [encodeField] at hx
  rcases List.mem_append.mp hx with h1 | h2
  · exact (quotePlus_no_amp_eq _ _ h1).1 rfl
  · rcases List.mem_cons.mp h2 with he | h3
    · exact absurd he (by decide)
    · exact (quotePlus_no_amp_eq _ _ h3).1 rfl

theorem encodeField_not_empty (pr : String × String) : (encodeField pr).isEmpty = false := by
  rw [encodeField]
  cases quotePlus pr.1.data <;> rfl

theorem parseField_encodeField (pr : String × String) :
    parseField (encodeField pr) = some pr := by
  rw [parseField, encodeField]
  rw [splitFirst_at_sep '=' _ _ (fun hx => (quotePlus_no_amp_eq _ _ hx).2 rfl)]
  show (unquotePlus (quotePlus pr.1.data)).bind _ = some pr
  rw [unquotePlus_quotePlus]
  show (unquotePlus (quotePlus pr.2.data)).map _ = some pr
  rw [unquotePlus_quotePlus]
  rfl

theorem mapM_parseField_encodeField (ps : List (String × String)) :
    (ps.map encodeField).mapM parseField = some ps := by
  induction ps with
  | nil => rfl
  | cons p rest ih =>
    rw [List.map_cons, List.mapM_cons, parseField_encodeField, ih]
    rfl

theorem parse_qsl_urlencode (ps : List (String × String)) :
    parse_qsl (urlencode ps) = some ps := by
  rw [parse_qsl, urlencode]
  rw [show (String.mk (joinSep '&' (ps.map encodeField))).data =
        joinSep '&' (ps.map encodeField) from rfl]
  cases ps with
  | nil => rfl
  | cons p rest =>
    rw [splitOnChar_joinSep '&' _ (fun f hf => by
          simp only [List.mem_map] at hf
          obtain ⟨pr, _, rfl⟩ := hf
          exact encodeField_no_amp pr)
        (by simp)]
    rw [List.filter_eq_self.mpr (fun f hf => by
          simp only [List.mem_map] at hf
          obtain ⟨pr, _, rfl⟩ := hf
          rw [encodeField_not_empty pr]
          rfl)]
    exact mapM_parseField_encodeField (p :: rest)

/-- C8: query parameter encoding round-trips: decoding the query string built
from the truthy parameter mapping of gitea_json_issues_search recovers that
mapping exactly. -/
theorem search_query_encode_decode_roundtrip (a : SearchArgs) :
    parse_qsl (urlencode (search_query_params a)) = some (search_query_params a) :=
  parse_qsl_urlencode (search_query_params a)

end GiteaUtils
